import Mathlib

/-!
Shallow embedding of the MernBytes auth-service registration workflow.

Source under src/: `src/app.ts` (the global error-handling middleware) and
`src/routes/auth.ts` (the route wiring `registerValidator` before the
controller) are embedded directly from the source. The controller
(`AuthController.register`), the service (`UserService`), the validator
(`register-validator`), the entities (`User`, `RefreshToken`) and the
credential/token helpers are repository code not present under src/ (only
their integration tests are); those definitions are modelled from the spec and
say so in their doc comments.
-/

deriving instance DecidableEq for Except

namespace AuthService

/-- Role enumeration from the spec data model: customer, admin, manager. -/
inductive Role where
  | customer
  | admin
  | manager
deriving DecidableEq, Repr

/-- Modelled from the spec: the Credential Hasher (bcrypt wrapper) is not under
src/. An issued hash is modelled as an abstract one-way container holding the
salt drawn for the call and the original plaintext; `bcryptRender` below gives
its fixed-length 60-character string encoding, and `bcryptVerify` re-checks a
plaintext against the container, as bcrypt.compare does. -/
structure HashStr where
  salt : Nat
  plain : String
deriving DecidableEq, Repr

/-- The 64-character bcrypt output alphabet. -/
def bcryptAlphabet : List Char :=
  "./ABCDEFGHIJKLMNOPQRSTUVWXYZabcdefghijklmnopqrstuvwxyz0123456789".toList

/-- Character of the bcrypt alphabet at a digit position. -/
def alphaAt (d : Nat) : Char := bcryptAlphabet.getD d '.'

/-- Little-endian base-64 digits of a number, padded to a fixed width. -/
def encAux : Nat → Nat → List Nat
  | 0, _ => []
  | n + 1, s => s % 64 :: encAux n (s / 64)

/-- Decode a little-endian base-64 digit list back to a number. -/
def decodeNat : List Nat → Nat
  | [] => 0
  | d :: ds => d + 64 * decodeNat ds

/-- A deterministic digest of a string, used to fill the hash body. -/
def strFold (s : String) : Nat :=
  s.toList.foldl (fun a c => (a * 31 + c.toNat) % 1000000007) 7

/-- An alphabet character different from the given character. -/
def nextAlpha (c : Char) : Char := if c = 'x' then 'y' else 'x'

/-- The 22 salt characters of the rendered hash. -/
def saltChars (s : Nat) : List Char := (encAux 22 s).map alphaAt

/-- The 30 digest characters of the rendered hash. -/
def digestChars (s : Nat) (p : String) : List Char :=
  (encAux 30 (strFold p + s)).map alphaAt

/-- One hash-body character chosen so that the rendered hash can never be the
plaintext itself (the one-way idealization of the model). -/
def diagChar (p : String) : Char :=
  if p.length = 60 then nextAlpha ((p.toList.drop 7).headD '.')
  else alphaAt (strFold p % 64)

/-- The version-and-cost prefix of a rendered hash. -/
def bcryptPrefixChars : List Char := ['$', '2', 'b', '$', '1', '0', '$']

/-- Character list of the rendered hash: version/cost prefix, the diagonal
character, the salt characters, the digest characters. -/
def renderList (h : HashStr) : List Char :=
  bcryptPrefixChars ++ diagChar h.plain :: (saltChars h.salt ++ digestChars h.salt h.plain)

/-- The 60-character bcrypt-style string encoding of a hash. -/
def bcryptRender (h : HashStr) : String := String.mk (renderList h)

/-- Modelled from the spec: hashing a plaintext with the salt drawn for this
call. -/
def bcryptHash (plaintext : String) (salt : Nat) : HashStr := ⟨salt, plaintext⟩

/-- Modelled from the spec: verifying a plaintext against a stored hash. -/
def bcryptVerify (plaintext : String) (h : HashStr) : Bool := plaintext == h.plain

/-- Number of distinct salts the model draws from. -/
def saltBound : Nat := 64 ^ 22

/-- User entity from the spec data model (entity/User.ts is not under src/). -/
structure User where
  id : Nat
  firstName : String
  lastName : String
  email : String
  password : HashStr
  role : Role
deriving DecidableEq, Repr

/-- RefreshToken entity from the spec data model (entity/RefreshToken.ts is not
under src/). -/
structure RefreshTokenRec where
  id : Nat
  userId : Nat
  expiresAt : Nat
deriving DecidableEq, Repr

/-- The persistent store: both tables plus the surrogate-id counters. -/
structure DbState where
  users : List User
  refreshTokens : List RefreshTokenRec
  nextUserId : Nat
  nextRefreshTokenId : Nat
deriving DecidableEq, Repr

/-- Raw body of POST /auth/register. -/
structure RegisterInput where
  firstName : String
  lastName : String
  email : String
  password : String
deriving DecidableEq, Repr

/-- One entry of the errors array of the 400/500 envelope. -/
structure FieldError where
  type : String
  msg : String
  path : String
  location : String
deriving DecidableEq, Repr

/-- Build a field-level validation error as express-validator shapes them. -/
def mkFieldError (field msg : String) : FieldError := ⟨"field", msg, field, "body"⟩

/-- Whitespace characters the trim of the validator removes. -/
def isWhitespaceChar (c : Char) : Bool :=
  c == ' ' || c == '\t' || c == '\n' || c == '\r'

/-- Trim leading and trailing whitespace from a character list. -/
def trimChars (l : List Char) : List Char :=
  ((l.dropWhile isWhitespaceChar).reverse.dropWhile isWhitespaceChar).reverse

/-- Trim of the validator, as JavaScript trim on the submitted field. -/
def trimStr (s : String) : String := String.mk (trimChars s.data)

/-- True when a field is empty once trimmed. -/
def blankStr (s : String) : Bool := (trimStr s).data.isEmpty

/-- Split a character list at every occurrence of a separator. -/
def splitOnChar (sep : Char) : List Char → List (List Char)
  | [] => [[]]
  | c :: cs =>
    match splitOnChar sep cs with
    | [] => [[c]]
    | h :: t => if c == sep then [] :: h :: t else (c :: h) :: t

/-- Modelled from the spec: the email-shape rule of register-validator (the
validator file is not under src/): a single at-sign with a non-empty local
part, a dotted domain of non-empty labels, and no spaces. -/
def emailShaped (s : String) : Bool :=
  match splitOnChar '@' s.data with
  | [lpart, domain] =>
    (!lpart.isEmpty) && (!domain.isEmpty) &&
      (let labels := splitOnChar '.' domain
       decide (2 ≤ labels.length) && labels.all (fun l => !l.isEmpty)) &&
      s.data.all (fun c => c ≠ ' ')
  | _ => false

/-- Modelled from the spec: the ordered field-level error list of
register-validator. Every field must be non-empty after trimming, the email
must be well-shaped once trimmed, and the password must be at least 8
characters. -/
def regErrors (i : RegisterInput) : List FieldError :=
  (if blankStr i.firstName then [mkFieldError "firstName" "First name is required!"] else []) ++
  (if blankStr i.lastName then [mkFieldError "lastName" "Last name is required!"] else []) ++
  (if blankStr i.email then [mkFieldError "email" "Email is required!"]
   else if !emailShaped (trimStr i.email) then [mkFieldError "email" "Email should be a valid email!"] else []) ++
  (if blankStr i.password then [mkFieldError "password" "Password is required!"]
   else if i.password.length < 8 then
     [mkFieldError "password" "Password length should be at least 8 chars!"] else [])

/-- Modelled from the spec: the validator verdict; on success the input is
returned with the email trimmed, on failure the error list is returned. -/
def validateRegister (i : RegisterInput) : Except (List FieldError) RegisterInput :=
  if (regErrors i).isEmpty then .ok { i with email := trimStr i.email }
  else .error (regErrors i)

/-- Characters allowed in a base64url token segment. -/
def isB64urlChar (c : Char) : Bool := c.isAlphanum || c == '-' || c == '_'

/-- Sixteen base64url characters used to encode token bytes. -/
def hexAlpha : List Char := "ABCDEFGHIJKLMNOP".toList

/-- One base64url character for a nibble value. -/
def hexChar (n : Nat) : Char := hexAlpha.getD (n % 16) 'A'

/-- Encode a character list into base64url characters, two per input
character. -/
def encSegList : List Char → List Char
  | [] => []
  | c :: cs => hexChar (c.toNat / 16) :: hexChar c.toNat :: encSegList cs

/-- Encode a string as one base64url token segment. -/
def encodeSegment (s : String) : String := String.mk (encSegList s.toList)

/-- Printed form of a role, as carried in token claims. -/
def roleString : Role → String
  | .customer => "customer"
  | .admin => "admin"
  | .manager => "manager"

/-- Modelled from the spec: the claims payload carried by both tokens, subject
identity and role (the token service file is not under src/). -/
def tokenPayload (userId : Nat) (role : Role) : String :=
  "sub=" ++ toString userId ++ ";role=" ++ roleString role

/-- Modelled from the spec: a signed token is three dot-separated base64url
segments, header, payload and a secret-keyed signature. -/
def signJwt (payload secret : String) : String :=
  encodeSegment "alg=HS256;typ=JWT" ++ "." ++ encodeSegment payload ++ "." ++
    encodeSegment (payload ++ secret)

/-- Signing secret of access tokens, from configuration. -/
def accessSecret : String := "access-secret"

/-- Signing secret of refresh tokens, from configuration. -/
def refreshSecret : String := "refresh-secret"

/-- Validity window of a refresh token, from configuration (days). -/
def refreshTokenTtl : Nat := 31536000000

/-- Error object reaching the global error handler: its constructor name, its
message, and the optional statusCode and status fields of http-errors. -/
structure HttpErr where
  name : String
  message : String
  statusCode : Option Nat
  status : Option Nat
deriving DecidableEq, Repr

/-- JavaScript truthiness of an optional number: undefined and 0 are falsy. -/
def jsTruthyNat : Option Nat → Bool
  | some n => n != 0
  | none => false

/-- JavaScript logical-or over optional numbers, as in a || b. -/
def jsOr (a b : Option Nat) : Option Nat := if jsTruthyNat a then a else b

/-- Response of the global error handler: HTTP status, the errors envelope, and
the message handed to the logger. -/
structure ErrorResponse where
  status : Nat
  errors : List FieldError
  logged : String
deriving DecidableEq, Repr

/-- The global error-handling middleware of src/app.ts: log err.message, take
the status from err.statusCode || err.status || 500, and answer with the
envelope whose single entry has type err.name, msg err.message and empty path
and location. -/
def globalErrorHandler (err : HttpErr) : ErrorResponse :=
  { status := (jsOr err.statusCode (jsOr err.status (some 500))).getD 500
    errors := [{ type := err.name, msg := err.message, path := "", location := "" }]
    logged := err.message }

/-- The status formula as the spec's words state it, with nullish coalescing:
err.statusCode ?? err.status ?? 500. -/
def specNullishStatus (err : HttpErr) : Nat :=
  err.statusCode.getD (err.status.getD 500)

/-- The status formula as the code computes it: JavaScript ||, under which a
present but zero statusCode or status is skipped. -/
def codeOrStatus (err : HttpErr) : Nat :=
  match err.statusCode with
  | some n => if n ≠ 0 then n else match err.status with
    | some m => if m ≠ 0 then m else 500
    | none => 500
  | none => match err.status with
    | some m => if m ≠ 0 then m else 500
    | none => 500

/-- Body of a registration response: the created id, or the errors envelope. -/
inductive RegBody where
  | created (id : Nat)
  | failed (errors : List FieldError)
deriving DecidableEq, Repr

/-- An HTTP cookie set on the response. -/
structure Cookie where
  name : String
  value : String
  httpOnly : Bool
deriving DecidableEq, Repr

/-- A registration response: status, body and cookies. -/
structure RegResponse where
  status : Nat
  body : RegBody
  cookies : List Cookie
deriving DecidableEq, Repr

/-- Collaborator calls the workflow performs, in order: used to state that a
short-circuited run never reaches hashing or persistence. -/
inductive Effect where
  | dbFindByEmail
  | hashCall
  | dbCreateUser
  | signCall
  | dbCreateRefreshToken
deriving DecidableEq, Repr

/-- Result of one registration call: the response, the store afterwards, and
the collaborator calls made. -/
structure RegResult where
  resp : RegResponse
  state : DbState
  effects : List Effect
deriving DecidableEq, Repr

/-- Modelled from the spec: UserService.findByEmail, a linear scan of the User
table. -/
def findByEmail (users : List User) (email : String) : Option User :=
  users.find? (fun u => u.email == email)

/-- Modelled from the spec: AuthController.register orchestrating the workflow
(the controller and service files are not under src/). Steps: validator result
(400 short-circuit with the field errors), duplicate-email lookup (400,
conflict), hashing, User creation with role customer, token issuance,
RefreshToken persistence, HttpOnly cookies, 201 with the created id. A
persistence outage (dbUp = false) surfaces as a thrown error answered by the
global error handler of src/app.ts. -/
def register (st : DbState) (i : RegisterInput) (salt : Nat) (dbUp : Bool) : RegResult :=
  match validateRegister i with
  | .error errs => ⟨⟨400, .failed errs, []⟩, st, []⟩
  | .ok v =>
    if dbUp then
      match findByEmail st.users v.email with
      | some _ =>
        ⟨⟨400, .failed [⟨"ConflictError", "Email already exists!", "", ""⟩], []⟩, st,
          [.dbFindByEmail]⟩
      | none =>
        let hashed := bcryptHash v.password salt
        let user : User :=
          ⟨st.nextUserId, v.firstName, v.lastName, v.email, hashed, .customer⟩
        let accessToken := signJwt (tokenPayload user.id user.role) accessSecret
        let refreshToken := signJwt (tokenPayload user.id user.role) refreshSecret
        let rt : RefreshTokenRec := ⟨st.nextRefreshTokenId, user.id, refreshTokenTtl⟩
        ⟨⟨201, .created user.id,
            [⟨"accessToken", accessToken, true⟩, ⟨"refreshToken", refreshToken, true⟩]⟩,
          ⟨st.users ++ [user], st.refreshTokens ++ [rt],
            st.nextUserId + 1, st.nextRefreshTokenId + 1⟩,
          [.dbFindByEmail, .hashCall, .dbCreateUser, .signCall, .dbCreateRefreshToken]⟩
    else
      let handled := globalErrorHandler ⟨"Error", "database unavailable", none, none⟩
      ⟨⟨handled.status, .failed handled.errors, []⟩, st, [.dbFindByEmail]⟩

/-- No two users of a table share an email. -/
def uniqueEmails (users : List User) : Prop :=
  users.Pairwise (fun a b => a.email ≠ b.email)

/-- A token string shaped like a signed JWT: three non-empty dot-separated
base64url segments. -/
def jwtShaped (t : String) : Prop :=
  ∃ a b c : String, t = a ++ "." ++ b ++ "." ++ c ∧
    a ≠ "" ∧ b ≠ "" ∧ c ≠ "" ∧
    a.toList.all isB64urlChar = true ∧ b.toList.all isB64urlChar = true ∧
    c.toList.all isB64urlChar = true

/-- The bcrypt format check of the tests: a 2a or 2b version tag, a non-empty
digit run for the cost, then the salt-and-digest body. -/
def bcryptPrefixCheck (s : String) : Bool :=
  match s.toList with
  | '$' :: '2' :: v :: '$' :: rest =>
    (v == 'a' || v == 'b') &&
      (!(rest.takeWhile Char.isDigit).isEmpty) &&
      (match rest.dropWhile Char.isDigit with
       | '$' :: _ => true
       | _ => false)
  | _ => false

/-- The concrete registration payload of the spec's test scenario. -/
def shivaInput : RegisterInput :=
  ⟨"Shiva", "Pal", "shivapal108941@gmail.com", "secret@1234"⟩

/-- The spec's payload with whitespace around the email. -/
def paddedEmailInput : RegisterInput :=
  ⟨"Shiva", "Pal", " shivapal108941@gmail.com ", "secret@1234"⟩

/-- The spec's payload with an empty email. -/
def emptyEmailInput : RegisterInput := ⟨"Shiva", "Pal", "", "secret@1234"⟩

/-- A fresh store, as after a database truncate. -/
def emptyDb : DbState := ⟨[], [], 1, 1⟩

/-- The user row the test scenario creates. -/
def shivaUser : User :=
  ⟨1, "Shiva", "Pal", "shivapal108941@gmail.com", ⟨7, "secret@1234"⟩, .customer⟩

/-- A store already holding the test scenario's user. -/
def oneUserDb : DbState := ⟨[shivaUser], [], 2, 1⟩

/-! Lemmas about the validator. -/

theorem validateRegister_ok (i v : RegisterInput) (h : validateRegister i = .ok v) :
    v = { i with email := trimStr i.email } := by
  unfold validateRegister at h
  split at h
  · exact (Except.ok.inj h).symm
  · exact absurd h (by simp)

theorem validateRegister_error_ne_nil (i : RegisterInput) (errs : List FieldError)
    (h : validateRegister i = .error errs) : errs ≠ [] := by
  unfold validateRegister at h
  split at h
  · exact absurd h (by simp)
  · rename_i hne
    obtain rfl : regErrors i = errs := Except.error.inj h
    simpa [List.isEmpty_iff] using hne

/-! Lemmas about the hash encoding. -/

theorem encAux_length (n s : Nat) : (encAux n s).length = n := by
  induction n generalizing s with
  | zero => rfl
  | succ m ih => simp [encAux, ih]

theorem encAux_lt64 (n s : Nat) : ∀ d ∈ encAux n s, d < 64 := by
  induction n generalizing s with
  | zero => simp [encAux]
  | succ m ih =>
    intro d hd
    rcases List.mem_cons.mp hd with h | h
    · exact h ▸ Nat.mod_lt _ (by decide)
    · exact ih _ _ h

theorem decodeNat_encAux (n s : Nat) : decodeNat (encAux n s) = s % 64 ^ n := by
  induction n generalizing s with
  | zero => simp [encAux, decodeNat, Nat.mod_one]
  | succ m ih =>
    have hkey : s % 64 ^ (m + 1) = s % 64 + 64 * (s / 64 % 64 ^ m) := by
      rw [pow_succ, mul_comm, Nat.mod_mul]
    simp [encAux, decodeNat, ih, hkey]

theorem alphaAt_inj : ∀ a, a < 64 → ∀ b, b < 64 → alphaAt a = alphaAt b → a = b := by
  decide

theorem map_alphaAt_inj : ∀ l1 l2 : List Nat, (∀ d ∈ l1, d < 64) → (∀ d ∈ l2, d < 64) →
    l1.map alphaAt = l2.map alphaAt → l1 = l2
  | [], [], _, _, _ => rfl
  | [], _ :: _, _, _, h => by simp at h
  | _ :: _, [], _, _, h => by simp at h
  | a :: l1, b :: l2, hb1, hb2, h => by
    simp only [List.map_cons, List.cons.injEq] at h
    have ha := alphaAt_inj a (hb1 a (by simp)) b (hb2 b (by simp)) h.1
    have hrest := map_alphaAt_inj l1 l2 (fun d hd => hb1 d (by simp [hd]))
      (fun d hd => hb2 d (by simp [hd])) h.2
    simp [ha, hrest]

theorem toList_mk (l : List Char) : (String.mk l).toList = l := rfl

theorem renderList_length (h : HashStr) : (renderList h).length = 60 := by
  simp [renderList, saltChars, digestChars, bcryptPrefixChars, encAux_length]

theorem bcryptRender_length (h : HashStr) : (bcryptRender h).length = 60 :=
  renderList_length h

theorem nextAlpha_ne (c : Char) : nextAlpha c ≠ c := by
  unfold nextAlpha
  split
  · rename_i hx
    rw [hx]
    decide
  · rename_i hx
    exact fun hc => hx hc.symm

theorem bcryptRender_ne_plain (s : Nat) (p : String) : bcryptRender ⟨s, p⟩ ≠ p := by
  intro heq
  have hdata : renderList ⟨s, p⟩ = p.data := congrArg String.data heq
  have hlen : p.length = 60 := by
    have h60 := renderList_length ⟨s, p⟩
    rw [hdata] at h60
    exact h60
  have hdrop : p.data.drop 7 = diagChar p :: (saltChars s ++ digestChars s p) := by
    rw [← hdata, renderList]
    exact List.drop_left bcryptPrefixChars _
  have hdiag : diagChar p = nextAlpha ((p.toList.drop 7).headD '.') := by
    simp [diagChar, hlen]
  rw [show p.toList = p.data from rfl, hdrop] at hdiag
  simp only [List.headD_cons] at hdiag
  exact nextAlpha_ne (diagChar p) hdiag.symm

theorem render_salt_inj (p : String) (s1 s2 : Nat) (h1 : s1 < saltBound) (h2 : s2 < saltBound)
    (h : bcryptRender ⟨s1, p⟩ = bcryptRender ⟨s2, p⟩) : s1 = s2 := by
  have hl : renderList ⟨s1, p⟩ = renderList ⟨s2, p⟩ := congrArg String.data h
  simp only [renderList] at hl
  have htail := List.append_cancel_left hl
  have htail2 := (List.cons.inj htail).2
  have hsc : saltChars s1 = saltChars s2 :=
    (List.append_inj htail2 (by simp [saltChars, encAux_length])).1
  have hdig : encAux 22 s1 = encAux 22 s2 :=
    map_alphaAt_inj _ _ (encAux_lt64 _ _) (encAux_lt64 _ _) hsc
  have hdec := congrArg decodeNat hdig
  have h1b : s1 < 64 ^ 22 := h1
  have h2b : s2 < 64 ^ 22 := h2
  rw [decodeNat_encAux, decodeNat_encAux, Nat.mod_eq_of_lt h1b, Nat.mod_eq_of_lt h2b] at hdec
  exact hdec

theorem bcryptPrefixCheck_render (h : HashStr) : bcryptPrefixCheck (bcryptRender h) = true := by
  show bcryptPrefixCheck (String.mk (renderList h)) = true
  simp only [bcryptPrefixCheck, toList_mk, renderList, bcryptPrefixChars]
  simp [List.takeWhile, List.dropWhile]

/-! Lemmas about token segments. -/

theorem hexChar_b64 (n : Nat) : isB64urlChar (hexChar n) = true := by
  have hb : n % 16 < 16 := Nat.mod_lt _ (by decide)
  have hall : ∀ m, m < 16 → isB64urlChar (hexAlpha.getD m 'A') = true := by decide
  exact hall (n % 16) hb

theorem encSegList_all_b64 (l : List Char) : (encSegList l).all isB64urlChar = true := by
  induction l with
  | nil => rfl
  | cons c cs ih => simp [encSegList, ih, hexChar_b64]

theorem encodeSegment_ne_empty (s : String) (hs : s ≠ "") : encodeSegment s ≠ "" := by
  intro h
  apply hs
  have hdata : encSegList s.data = [] := congrArg String.data h
  cases hd : s.data with
  | nil => exact congrArg String.mk hd
  | cons c cs => rw [hd] at hdata; exact absurd hdata (by simp [encSegList])

theorem encodeSegment_all_b64 (s : String) :
    (encodeSegment s).toList.all isB64urlChar = true := encSegList_all_b64 s.toList

theorem tokenPayload_ne_empty (uid : Nat) (r : Role) : tokenPayload uid r ≠ "" := by
  intro h
  have hlen := congrArg String.length h
  simp [tokenPayload, String.length_append] at hlen
  exact absurd hlen.1.1.1 (by decide)

theorem jwtShaped_signJwt (payload secret : String) (hp : payload ≠ "") :
    jwtShaped (signJwt payload secret) := by
  refine ⟨encodeSegment "alg=HS256;typ=JWT", encodeSegment payload,
    encodeSegment (payload ++ secret), rfl, ?_, ?_, ?_, ?_, ?_, ?_⟩
  · exact encodeSegment_ne_empty _ (by decide)
  · exact encodeSegment_ne_empty _ hp
  · refine encodeSegment_ne_empty _ (fun h => hp ?_)
    have hlen := congrArg String.length h
    rw [String.length_append] at hlen
    have : payload.length = 0 := by
      have h0 : ("" : String).length = 0 := rfl
      omega
    cases hp2 : payload.data with
    | nil => exact congrArg String.mk hp2
    | cons c cs =>
      rw [show payload.length = payload.data.length from rfl, hp2] at this
      exact absurd this (by simp)
  · exact encodeSegment_all_b64 _
  · exact encodeSegment_all_b64 _
  · exact encodeSegment_all_b64 _

/-! Branch equations of the registration workflow. -/

theorem register_of_error (st : DbState) (i : RegisterInput) (salt : Nat) (dbUp : Bool)
    (errs : List FieldError) (herr : validateRegister i = .error errs) :
    register st i salt dbUp = ⟨⟨400, .failed errs, []⟩, st, []⟩ := by
  simp [register, herr]

theorem register_of_dup (st : DbState) (i v : RegisterInput) (salt : Nat) (u : User)
    (hok : validateRegister i = .ok v) (hdup : findByEmail st.users v.email = some u) :
    register st i salt true =
      ⟨⟨400, .failed [⟨"ConflictError", "Email already exists!", "", ""⟩], []⟩, st,
        [.dbFindByEmail]⟩ := by
  simp [register, hok, hdup]

theorem register_of_fresh (st : DbState) (i v : RegisterInput) (salt : Nat)
    (hok : validateRegister i = .ok v) (hnodup : findByEmail st.users v.email = none) :
    register st i salt true =
      ⟨⟨201, .created st.nextUserId,
          [⟨"accessToken", signJwt (tokenPayload st.nextUserId .customer) accessSecret, true⟩,
            ⟨"refreshToken", signJwt (tokenPayload st.nextUserId .customer) refreshSecret, true⟩]⟩,
        ⟨st.users ++
            [⟨st.nextUserId, v.firstName, v.lastName, v.email, ⟨salt, v.password⟩, .customer⟩],
          st.refreshTokens ++ [⟨st.nextRefreshTokenId, st.nextUserId, refreshTokenTtl⟩],
          st.nextUserId + 1, st.nextRefreshTokenId + 1⟩,
        [.dbFindByEmail, .hashCall, .dbCreateUser, .signCall, .dbCreateRefreshToken]⟩ := by
  simp [register, hok, hnodup, bcryptHash]

theorem register_of_down (st : DbState) (i v : RegisterInput) (salt : Nat)
    (hok : validateRegister i = .ok v) :
    register st i salt false =
      ⟨⟨500, .failed [⟨"Error", "database unavailable", "", ""⟩], []⟩, st,
        [.dbFindByEmail]⟩ := by
  simp [register, hok, globalErrorHandler, jsOr, jsTruthyNat]

theorem register_state_unchanged_or_appends (st : DbState) (i : RegisterInput) (salt : Nat)
    (dbUp : Bool) :
    (register st i salt dbUp).state = st ∨
      ∃ v : RegisterInput, validateRegister i = .ok v ∧
        findByEmail st.users v.email = none ∧
        (register st i salt dbUp).state.users =
          st.users ++
            [⟨st.nextUserId, v.firstName, v.lastName, v.email, ⟨salt, v.password⟩, .customer⟩] := by
  cases hval : validateRegister i with
  | error errs => exact .inl (by rw [register_of_error st i salt dbUp errs hval])
  | ok v =>
    cases dbUp with
    | false => exact .inl (by rw [register_of_down st i v salt hval])
    | true =>
      cases hf : findByEmail st.users v.email with
      | some u => exact .inl (by rw [register_of_dup st i v salt u hval hf])
      | none => exact .inr ⟨v, rfl, hf, by rw [register_of_fresh st i v salt hval hf]⟩

theorem register_preserves_uniqueEmails (st : DbState) (i : RegisterInput) (salt : Nat)
    (dbUp : Bool) (hu : uniqueEmails st.users) :
    uniqueEmails (register st i salt dbUp).state.users := by
  rcases register_state_unchanged_or_appends st i salt dbUp with heq | ⟨v, _, hf, heq⟩
  · rw [heq]; exact hu
  · rw [heq]
    rw [uniqueEmails, List.pairwise_append]
    refine ⟨hu, by simp, ?_⟩
    intro a ha b hb
    have hb' : b = ⟨st.nextUserId, v.firstName, v.lastName, v.email, ⟨salt, v.password⟩,
        .customer⟩ := by simpa using hb
    subst hb'
    have hnone := List.find?_eq_none.mp hf a ha
    simpa using hnone

theorem register_dup_responds_400 (st : DbState) (i : RegisterInput) (salt : Nat)
    (hdup : ∃ u ∈ st.users, u.email = trimStr i.email) :
    (register st i salt true).resp.status = 400 ∧ (register st i salt true).state = st := by
  obtain ⟨u0, hmem, hemail⟩ := hdup
  cases hval : validateRegister i with
  | error errs => rw [register_of_error st i salt true errs hval]; exact ⟨rfl, rfl⟩
  | ok v =>
    have hve : v.email = trimStr i.email := by rw [validateRegister_ok i v hval]
    have hsome : (st.users.find? (fun u => u.email == v.email)).isSome := by
      rw [List.find?_isSome]
      exact ⟨u0, hmem, by simp [hve, hemail]⟩
    obtain ⟨w, hw⟩ := Option.isSome_iff_exists.mp hsome
    rw [register_of_dup st i v salt w hval hw]
    exact ⟨rfl, rfl⟩

/-! The claims. -/

/-- C1: for every valid, non-duplicate registration input, POST /auth/register
responds 201, creates exactly one User row carrying the submitted firstName and
lastName and the trimmed email, assigns role customer, and creates exactly one
RefreshToken row referencing that user. -/
theorem c1_register_valid_creates (st : DbState) (i v : RegisterInput) (salt : Nat)
    (hok : validateRegister i = .ok v)
    (hnodup : findByEmail st.users v.email = none) :
    ∃ u rt,
      (register st i salt true).resp.status = 201 ∧
      (register st i salt true).state.users = st.users ++ [u] ∧
      u.firstName = i.firstName ∧ u.lastName = i.lastName ∧
      u.email = trimStr i.email ∧ u.role = .customer ∧
      (register st i salt true).state.refreshTokens = st.refreshTokens ++ [rt] ∧
      rt.userId = u.id := by
  have hv := validateRegister_ok i v hok
  refine ⟨⟨st.nextUserId, v.firstName, v.lastName, v.email, ⟨salt, v.password⟩, .customer⟩,
    ⟨st.nextRefreshTokenId, st.nextUserId, refreshTokenTtl⟩, ?_⟩
  rw [register_of_fresh st i v salt hok hnodup]
  subst hv
  simp

/-- C2: every User row the registration operation persists stores a password
that differs from the submitted plaintext and is a 60-character string
matching the bcrypt prefix pattern. -/
theorem c2_stored_password_hashed (st : DbState) (i : RegisterInput) (salt : Nat) (u : User)
    (hmem : u ∈ (register st i salt true).state.users) :
    u ∈ st.users ∨
      (bcryptRender u.password ≠ i.password ∧ (bcryptRender u.password).length = 60 ∧
        bcryptPrefixCheck (bcryptRender u.password) = true) := by
  rcases register_state_unchanged_or_appends st i salt true with heq | ⟨v, hok, hf, heq⟩
  · rw [heq] at hmem; exact .inl hmem
  · rw [heq] at hmem
    rcases List.mem_append.mp hmem with h | h
    · exact .inl h
    · have hu : u = ⟨st.nextUserId, v.firstName, v.lastName, v.email, ⟨salt, v.password⟩,
          .customer⟩ := by simpa using h
      subst hu
      right
      have hvp : v.password = i.password := by rw [validateRegister_ok i v hok]
      refine ⟨?_, bcryptRender_length _, bcryptPrefixCheck_render _⟩
      simpa [hvp] using bcryptRender_ne_plain salt v.password

/-- C3: a registration whose (trimmed) email matches an existing User responds
400 and leaves the store unchanged, and registration preserves the absence of
duplicate emails in the User table. -/
theorem c3_duplicate_email_rejected (st : DbState) (i : RegisterInput) (salt : Nat) :
    ((∃ u ∈ st.users, u.email = trimStr i.email) →
      (register st i salt true).resp.status = 400 ∧ (register st i salt true).state = st) ∧
    (uniqueEmails st.users → uniqueEmails (register st i salt true).state.users) :=
  ⟨register_dup_responds_400 st i salt, register_preserves_uniqueEmails st i salt true⟩

/-- C4: a registration input that fails validation gets a 400 response whose
errors array is non-empty, leaves the store untouched, and causes no
collaborator call at all: neither the hasher nor a repository is reached. -/
theorem c4_validation_short_circuits (st : DbState) (i : RegisterInput) (salt : Nat)
    (dbUp : Bool) (errs : List FieldError) (herr : validateRegister i = .error errs) :
    (register st i salt dbUp).resp.status = 400 ∧
    (register st i salt dbUp).resp.body = .failed errs ∧
    1 ≤ errs.length ∧
    (register st i salt dbUp).state = st ∧
    (register st i salt dbUp).effects = [] := by
  rw [register_of_error st i salt dbUp errs herr]
  exact ⟨rfl, rfl, List.length_pos.mpr (validateRegister_error_ne_nil i errs herr), rfl, rfl⟩

/-- C5 counterexample: the claim takes the handler status to be
err.statusCode ?? err.status ?? 500, but the code computes it with JavaScript
logical-or; at statusCode = 0 the code answers 500 while the claimed formula
answers 0. -/
theorem c5_nullish_status_counterexample :
    (globalErrorHandler ⟨"Error", "boom", some 0, none⟩).status = 500 ∧
      specNullishStatus ⟨"Error", "boom", some 0, none⟩ = 0 := by
  decide

/-- C5 amended: the handler logs the error message and responds with status
err.statusCode || err.status || 500 (JavaScript truthiness, so a present but
zero field is skipped), and the body is always the one-element envelope with
type the error name and msg the error message. -/
theorem c5_handler_status_and_envelope (err : HttpErr) :
    (globalErrorHandler err).status = codeOrStatus err ∧
    (globalErrorHandler err).logged = err.message ∧
    (globalErrorHandler err).errors =
      [{ type := err.name, msg := err.message, path := "", location := "" }] := by
  refine ⟨?_, rfl, rfl⟩
  show (jsOr err.statusCode (jsOr err.status (some 500))).getD 500 = codeOrStatus err
  rcases err with ⟨n, m, sc, stt⟩
  rcases sc with _ | a
  · rcases stt with _ | b
    · rfl
    · by_cases hb : b = 0 <;> simp [jsOr, jsTruthyNat, codeOrStatus, hb]
  · rcases stt with _ | b
    · by_cases ha : a = 0 <;> simp [jsOr, jsTruthyNat, codeOrStatus, ha]
    · by_cases ha : a = 0 <;> by_cases hb : b = 0 <;>
        simp [jsOr, jsTruthyNat, codeOrStatus, ha, hb]

/-- C6: a registration that fails validation or hits the duplicate-email check
is answered 400, never 500; a 500 answer can only arise from a persistence
outage. -/
theorem c6_only_persistence_failure_500 (st : DbState) (i : RegisterInput) (salt : Nat)
    (dbUp : Bool) :
    (((∃ errs, validateRegister i = .error errs) ∨
        (dbUp = true ∧ ∃ u ∈ st.users, u.email = trimStr i.email)) →
      (register st i salt dbUp).resp.status = 400) ∧
    ((register st i salt dbUp).resp.status = 500 → dbUp = false) := by
  constructor
  · rintro (⟨errs, herr⟩ | ⟨rfl, hdup⟩)
    · rw [register_of_error st i salt dbUp errs herr]
    · exact (register_dup_responds_400 st i salt hdup).1
  · intro h500
    cases hval : validateRegister i with
    | error errs =>
      rw [register_of_error st i salt dbUp errs hval] at h500
      simp at h500
    | ok v =>
      cases dbUp with
      | false => rfl
      | true =>
        cases hf : findByEmail st.users v.email with
        | some w =>
          rw [register_of_dup st i v salt w hval hf] at h500
          simp at h500
        | none =>
          rw [register_of_fresh st i v salt hval hf] at h500
          simp at h500

/-- C7: every successful registration answers 201 with two HttpOnly cookies,
accessToken and refreshToken, whose values are signed token strings of three
non-empty dot-separated base64url segments. -/
theorem c7_token_cookies (st : DbState) (i v : RegisterInput) (salt : Nat)
    (hok : validateRegister i = .ok v)
    (hnodup : findByEmail st.users v.email = none) :
    (register st i salt true).resp.status = 201 ∧
    ∃ a r : String,
      (register st i salt true).resp.cookies =
        [⟨"accessToken", a, true⟩, ⟨"refreshToken", r, true⟩] ∧
      jwtShaped a ∧ jwtShaped r := by
  rw [register_of_fresh st i v salt hok hnodup]
  exact ⟨rfl, _, _, rfl, jwtShaped_signJwt _ _ (tokenPayload_ne_empty _ _),
    jwtShaped_signJwt _ _ (tokenPayload_ne_empty _ _)⟩

/-- C8: the email stored in the created User row is the trimmed form of the
submitted email. -/
theorem c8_stored_email_trimmed (st : DbState) (i v : RegisterInput) (salt : Nat)
    (hok : validateRegister i = .ok v)
    (hnodup : findByEmail st.users v.email = none) :
    ∃ u, (register st i salt true).state.users = st.users ++ [u] ∧
      u.email = trimStr i.email := by
  rw [register_of_fresh st i v salt hok hnodup]
  exact ⟨_, rfl, by rw [validateRegister_ok i v hok]⟩

/-- C9: hashing the same plaintext on two calls (two distinct salts drawn from
the salt space) yields two different output strings, and verification accepts
exactly the original plaintext. -/
theorem c9_hasher_nondeterministic (p q : String) (s1 s2 : Nat)
    (hb1 : s1 < saltBound) (hb2 : s2 < saltBound) (hne : s1 ≠ s2) :
    bcryptRender (bcryptHash p s1) ≠ bcryptRender (bcryptHash p s2) ∧
    (bcryptVerify q (bcryptHash p s1) = true ↔ q = p) := by
  constructor
  · exact fun h => hne (render_salt_inj p s1 s2 hb1 hb2 h)
  · simp [bcryptVerify, bcryptHash]

/-- C10: the global error handler always answers with an errors array of
exactly one element whose path and location are the empty string. -/
theorem c10_envelope_single_empty_path (err : HttpErr) :
    (globalErrorHandler err).errors.length = 1 ∧
    ∀ e ∈ (globalErrorHandler err).errors, e.path = "" ∧ e.location = "" := by
  simp [globalErrorHandler]

/-! Witnesses: each claim theorem applied at the spec's concrete scenario. -/

/-- C1 witness: the spec's concrete payload on a fresh store. -/
theorem c1_witness :
    ∃ u rt,
      (register emptyDb shivaInput 7 true).resp.status = 201 ∧
      (register emptyDb shivaInput 7 true).state.users = emptyDb.users ++ [u] ∧
      u.firstName = shivaInput.firstName ∧ u.lastName = shivaInput.lastName ∧
      u.email = trimStr shivaInput.email ∧ u.role = .customer ∧
      (register emptyDb shivaInput 7 true).state.refreshTokens =
        emptyDb.refreshTokens ++ [rt] ∧
      rt.userId = u.id :=
  c1_register_valid_creates emptyDb shivaInput shivaInput 7 (by decide) (by decide)

/-- C2 witness: the row created for the spec's concrete payload. -/
theorem c2_witness :
    shivaUser ∈ emptyDb.users ∨
      (bcryptRender shivaUser.password ≠ shivaInput.password ∧
        (bcryptRender shivaUser.password).length = 60 ∧
        bcryptPrefixCheck (bcryptRender shivaUser.password) = true) :=
  c2_stored_password_hashed emptyDb shivaInput 7 shivaUser (by decide)

/-- C3 witness: resubmitting the payload against a store already holding it. -/
theorem c3_witness :
    ((register oneUserDb shivaInput 7 true).resp.status = 400 ∧
      (register oneUserDb shivaInput 7 true).state = oneUserDb) ∧
    uniqueEmails (register oneUserDb shivaInput 7 true).state.users :=
  ⟨(c3_duplicate_email_rejected oneUserDb shivaInput 7).1 ⟨shivaUser, by decide, by decide⟩,
    (c3_duplicate_email_rejected oneUserDb shivaInput 7).2 (by simp [uniqueEmails, oneUserDb])⟩

/-- C4 witness: the payload with an empty email. -/
theorem c4_witness :
    (register emptyDb emptyEmailInput 7 true).resp.status = 400 ∧
    (register emptyDb emptyEmailInput 7 true).resp.body =
      .failed [mkFieldError "email" "Email is required!"] ∧
    1 ≤ ([mkFieldError "email" "Email is required!"] : List FieldError).length ∧
    (register emptyDb emptyEmailInput 7 true).state = emptyDb ∧
    (register emptyDb emptyEmailInput 7 true).effects = [] :=
  c4_validation_short_circuits emptyDb emptyEmailInput 7 true
    [mkFieldError "email" "Email is required!"] (by decide)

/-- C6 witness: a validation failure is answered 400. -/
theorem c6_witness :
    (register emptyDb emptyEmailInput 7 true).resp.status = 400 :=
  (c6_only_persistence_failure_500 emptyDb emptyEmailInput 7 true).1
    (Or.inl ⟨[mkFieldError "email" "Email is required!"], by decide⟩)

/-- C7 witness: cookies of the spec's concrete successful registration. -/
theorem c7_witness :
    (register emptyDb shivaInput 7 true).resp.status = 201 ∧
    ∃ a r : String,
      (register emptyDb shivaInput 7 true).resp.cookies =
        [⟨"accessToken", a, true⟩, ⟨"refreshToken", r, true⟩] ∧
      jwtShaped a ∧ jwtShaped r :=
  c7_token_cookies emptyDb shivaInput shivaInput 7 (by decide) (by decide)

/-- C8 witness: the payload with whitespace around the email. -/
theorem c8_witness :
    ∃ u, (register emptyDb paddedEmailInput 7 true).state.users = emptyDb.users ++ [u] ∧
      u.email = trimStr paddedEmailInput.email :=
  c8_stored_email_trimmed emptyDb paddedEmailInput shivaInput 7 (by decide) (by decide)

/-- C9 witness: two salts for the spec's concrete password. -/
theorem c9_witness :
    bcryptRender (bcryptHash "secret@1234" 0) ≠ bcryptRender (bcryptHash "secret@1234" 1) ∧
    (bcryptVerify "secret@1234" (bcryptHash "secret@1234" 0) = true ↔
      ("secret@1234" : String) = "secret@1234") :=
  c9_hasher_nondeterministic "secret@1234" "secret@1234" 0 1 (by decide) (by decide) (by decide)

end AuthService
